import Mathlib

/-!
Verification of the resumable Spotify podcast crawler
(src/spotify_api/spotify_api.py) against its natural-language
specification.

The Python module is shallowly embedded here:

* SQLite tables become association lists: the podcasts table is a
  List Row and the query_progress ledger a List (String × Bool).
* Python dict access is made explicit: a dict field read with
  d.get(key, default) is modelled by dget on Option (Option α),
  where the outer Option records key presence and the inner Option a
  stored None.  This distinction matters because process_query always
  inserts every key (possibly bound to None) before calling
  save_podcast, so the defaults inside save_podcast never fire.
* Exceptions raised while building the SQL parameter tuple
  (None subscription, empty-list indexing, None attribute access)
  become an Except SaveErr result.
* The network is an oracle: each external search call is an
  argument of type Nat → Except ε SearchResult (offset ↦ outcome),
  and the backoff-decorated fetch takes an attempt-indexed stub.
-/

/-- One entry of a show's images list (a dict with a url key). -/
structure Image where
  url : Option String
deriving DecidableEq

/-- The external_urls dict of a show (only the spotify key is read). -/
structure ExternalUrls where
  spotify : Option String
deriving DecidableEq

/-- One item of a fetched page, as returned by the remote search call.
Every field is Option-valued: none models a key absent from the JSON
object.  Named ShowItem because the Python variable is named show. -/
structure ShowItem where
  id : Option String
  name : Option String
  description : Option String
  publisher : Option String
  total_episodes : Option Nat
  explicit : Option Bool
  media_type : Option String
  available_markets : Option (List String)
  languages : Option (List String)
  images : Option (List Image)
  external_urls : Option ExternalUrls
  href : Option String
deriving DecidableEq

/-- The envelope of one search response: results.get("shows", {}) then
.get("items", []) (spotify_api.py line 167). -/
structure ShowsBlock where
  items : Option (List ShowItem)
deriving DecidableEq

/-- A whole search response. -/
structure SearchResult where
  shows : Option ShowsBlock
deriving DecidableEq

/-- Extraction of the item list from a response, mirroring
results.get("shows", {}).get("items", []) at line 167: a missing
shows key yields the empty dict, whose items default is []. -/
def extract_items (r : SearchResult) : List ShowItem :=
  match r.shows with
  | none => []
  | some b => b.items.getD []

/-- The podcast_data dict built at lines 173-187.  Each field is
Option (Option α): the outer layer is key presence in the dict, the
inner layer a value that may itself be Python None.  process_query
always populates every key, so in records it builds the outer layer
is always some. -/
structure PodcastData where
  id : Option (Option String)
  name : Option (Option String)
  description : Option (Option String)
  publisher : Option (Option String)
  total_episodes : Option (Option Nat)
  explicit : Option (Option Bool)
  media_type : Option (Option String)
  available_markets : Option (Option (List String))
  languages : Option (Option (List String))
  images : Option (Option (List Image))
  external_urls : Option (Option ExternalUrls)
  href : Option (Option String)
  market : Option (Option String)
deriving DecidableEq

/-- Python dict.get(key, default): the stored value when the key is
present (even when that value is None), otherwise the default. -/
def dget (field : Option (Option α)) (default : Option α) : Option α :=
  match field with
  | some v => v
  | none => default

/-- One row of the podcasts table (columns of lines 59-74). -/
structure Row where
  id : Option String
  name : Option String
  description : Option String
  publisher : Option String
  total_episodes : Option Nat
  explicit : Option Bool
  media_type : Option String
  available_markets : Option String
  languages : Option String
  image_url : Option String
  external_url : Option String
  href : Option String
  recorded_countries : Option String
  market : Option String
deriving DecidableEq

/-- Exceptions that evaluating the parameter tuple of save_podcast can
raise: None subscription (None[0]), indexing an empty list ([][0]),
and attribute access on None (None.get). -/
inductive SaveErr where
  | typeError
  | indexError
  | attributeError
deriving DecidableEq

/-- The expression at lines 102 and 107:
", ".join(pd.get(k, [])) if pd.get(k) else None.
The condition reads the key without a default, and both None and the
empty list are falsy, so the column is NULL unless the key holds a
non-empty list. -/
def join_markets (field : Option (Option (List String))) : Option String :=
  match dget field none with
  | some (x :: xs) => some (String.intercalate ", " (x :: xs))
  | _ => none

/-- Evaluation of the 14-element SQL parameter tuple of save_podcast
(lines 94-109), in Python left-to-right evaluation order.  The image
expression pd.get("images", [{}])[0].get("url") raises TypeError when
the images key is bound to None and IndexError when it is bound to [];
the default [{}] applies only when the key is absent.  Likewise
pd.get("external_urls", {}).get("spotify") raises AttributeError when
the key is bound to None. -/
def buildRow (pd : PodcastData) : Except SaveErr Row := do
  let image_url ← match dget pd.images (some [⟨none⟩]) with
    | none => Except.error SaveErr.typeError
    | some [] => Except.error SaveErr.indexError
    | some (i :: _) => Except.ok i.url
  let external_url ← match dget pd.external_urls (some ⟨none⟩) with
    | none => Except.error SaveErr.attributeError
    | some u => Except.ok u.spotify
  Except.ok {
    id := dget pd.id none
    name := dget pd.name none
    description := dget pd.description none
    publisher := dget pd.publisher none
    total_episodes := dget pd.total_episodes none
    explicit := dget pd.explicit none
    media_type := dget pd.media_type none
    available_markets := join_markets pd.available_markets
    languages :=
      match dget pd.languages none with
      | some (x :: xs) => some (String.intercalate ", " (x :: xs))
      | _ => none
    image_url := image_url
    external_url := external_url
    href := dget pd.href none
    recorded_countries := join_markets pd.available_markets
    market := dget pd.market (some "US")
  }

/-- SQLite INSERT OR REPLACE on the podcasts table, whose primary key
is the id column: a row with a non-NULL id replaces every stored row
carrying that id, while a NULL id conflicts with nothing (SQLite
treats NULLs as distinct for uniqueness) and is inserted as a new
row. -/
def upsertRow (table : List Row) (r : Row) : List Row :=
  match r.id with
  | none => table ++ [r]
  | some i => table.filter (fun x => x.id ≠ some i) ++ [r]

/-- DatabaseManager.save_podcast (lines 84-110): evaluate the
parameter tuple (which may raise), then INSERT OR REPLACE. -/
def save_podcast (table : List Row) (pd : PodcastData) : Except SaveErr (List Row) := do
  let r ← buildRow pd
  Except.ok (upsertRow table r)

/-- DatabaseManager.is_query_completed (lines 112-121): select the
completed flag of the unique row for the query and apply
bool(result and result[0]); no row yields False. -/
def is_query_completed (ledger : List (String × Bool)) (query : String) : Bool :=
  (ledger.lookup query).getD false

/-- DatabaseManager.mark_query_completed (lines 123-132): INSERT OR
REPLACE of (query, True) into the query_progress ledger, whose primary
key is the query column. -/
def mark_query_completed (ledger : List (String × Bool)) (query : String) : List (String × Bool) :=
  ledger.filter (fun e => e.1 ≠ query) ++ [(query, true)]

/-- The persistent state owned by DatabaseManager: the podcasts table
and the query_progress completion ledger. -/
structure Db where
  podcasts : List Row
  progress : List (String × Bool)
deriving DecidableEq

/-- The podcast_data dict literal built at lines 173-187 from one
fetched show: every key is present, bound to show.get(field) (so the
outer layer is always some), and market is the constant "US". -/
def podcast_data_of (s : ShowItem) : PodcastData where
  id := some s.id
  name := some s.name
  description := some s.description
  publisher := some s.publisher
  total_episodes := some s.total_episodes
  explicit := some s.explicit
  media_type := some s.media_type
  available_markets := some s.available_markets
  languages := some s.languages
  images := some s.images
  external_urls := some s.external_urls
  href := some s.href
  market := some (some "US")

/-- The for-loop over a page's shows (lines 172-189): save each item
in order, incrementing total_podcasts after each successful save.  An
exception from save_podcast escapes the for-loop, so the result keeps
the rows already committed, the count of successful saves, and a flag
telling whether the whole page was saved (false = exception). -/
def save_all (table : List Row) (items : List ShowItem) : List Row × Nat × Bool :=
  match items with
  | [] => (table, 0, true)
  | s :: rest =>
    match save_podcast table (podcast_data_of s) with
    | Except.error _ => (table, 0, false)
    | Except.ok table' =>
      let k := save_all table' rest
      (k.1, k.2.1 + 1, k.2.2)

/-- Outcome of process_query: the database afterwards, the returned
total_podcasts count, and (for the proofs) the list of offsets at
which the fetcher was invoked, in invocation order. -/
structure ProcOut where
  db : Db
  total : Nat
  fetched : List Nat
deriving DecidableEq

/-- The while-loop of process_query (lines 164-197).  The fetch oracle
maps an offset to the outcome of fetch_data there: an exception (after
its internal retries) or a response.  Any exception inside the try
block - a fetch failure, or a save_podcast error while storing a
page's items - is caught by the except clause and breaks the loop.
The loop also ends on an empty item list or once offset reaches
1000. -/
def process_loop (fetch : Nat → Except ε SearchResult) (db : Db) (offset : Nat) : ProcOut :=
  if offset < 1000 then
    match fetch offset with
    | Except.error _ => ⟨db, 0, [offset]⟩
    | Except.ok results =>
      match extract_items results with
      | [] => ⟨db, 0, [offset]⟩
      | s :: rest =>
        let saved := save_all db.podcasts (s :: rest)
        let db' : Db := { db with podcasts := saved.1 }
        if saved.2.2 then
          let k := process_loop fetch db' (offset + 50)
          ⟨k.db, saved.2.1 + k.total, offset :: k.fetched⟩
        else ⟨db', saved.2.1, [offset]⟩
  else ⟨db, 0, []⟩
termination_by 1000 - offset
decreasing_by omega

/-- process_query (lines 158-201): run the pagination loop from
offset 0, then unconditionally mark the query completed and return the
count. -/
def process_query (fetch : Nat → Except ε SearchResult) (query : String) (db : Db) : ProcOut :=
  let k := process_loop fetch db 0
  ⟨{ k.db with progress := mark_query_completed k.db.progress query }, k.total, k.fetched⟩

/-- The retry loop of the backoff decorator on fetch_data
(lines 148-155): call the attempt-indexed stub; on an exception with
retries left, recurse on the next attempt; with none left, re-raise
the last exception.  The second component counts stub invocations. -/
def retry_call (stub : Nat → Except ε α) (attempt retries_left : Nat) : Except ε α × Nat :=
  match stub attempt, retries_left with
  | Except.ok a, _ => (Except.ok a, 1)
  | Except.error e, 0 => (Except.error e, 1)
  | Except.error _, n + 1 =>
    let k := retry_call stub (attempt + 1) n
    (k.1, k.2 + 1)

/-- fetch_data (lines 148-155) for one (query, offset) pair: the stub
abstracts spotify_client.search with query, offset and limit already
applied, indexed by the attempt number.  max_tries = 5 means one
initial try plus at most 4 retries. -/
def fetch_data (stub : Nat → Except ε α) : Except ε α × Nat :=
  retry_call stub 0 4

/-- generate_prefixes (lines 135-145): itertools.product over the
26-letter lowercase alphabet with repeat=3, each tuple joined into a
string.  The product iterates the rightmost position fastest, which
this nesting of binds reproduces exactly. -/
def generate_prefixes : List String :=
  ("abcdefghijklmnopqrstuvwxyz".toList).flatMap fun a =>
    ("abcdefghijklmnopqrstuvwxyz".toList).flatMap fun b =>
      ("abcdefghijklmnopqrstuvwxyz".toList).map fun c => String.mk [a, b, c]

/-- The query list built in main (lines 210-214): one query per
generated three-letter token (the f-string wrapper is the identity).
No filtering happens here: is_query_completed has no call site in the
module, so completed queries are dispatched again. -/
def main_queries : List String :=
  generate_prefixes.map (fun p => p)

/-- main's dispatch (lines 217-224), modelled sequentially: every
query of main_queries is handed to process_query against the shared
database, and the returned counts are summed.  The per-query fetch
oracle takes the query first. -/
def main_run (fetch : String → Nat → Except ε SearchResult) (db : Db) : Db × Nat :=
  main_queries.foldl
    (fun acc q =>
      let k := process_query (fetch q) q acc.1
      (k.db, acc.2 + k.total))
    (db, 0)

/-! Helper lemmas about the completion ledger. -/

/-- Looking up a key in an association list from which every pair with
that key was filtered out finds nothing. -/
theorem lookup_filter_ne_self (l : List (String × Bool)) (q : String) :
    (l.filter fun e => e.1 ≠ q).lookup q = none := by
  induction l with
  | nil => rfl
  | cons e t ih =>
    obtain ⟨k, b⟩ := e
    rw [List.filter_cons]
    by_cases h : k = q
    · have hd : (decide ((k, b).1 ≠ q)) = false := by simp [h]
      rw [hd]
      exact ih
    · have hd : (decide ((k, b).1 ≠ q)) = true := by simp [h]
      rw [hd, if_pos rfl, List.lookup_cons, beq_false_of_ne (Ne.symm h)]
      exact ih

/-- Filtering out the pairs keyed by a different query does not change
a lookup. -/
theorem lookup_filter_ne_other (l : List (String × Bool)) (q q' : String) (h : q' ≠ q) :
    (l.filter fun e => e.1 ≠ q).lookup q' = l.lookup q' := by
  induction l with
  | nil => rfl
  | cons e t ih =>
    obtain ⟨k, b⟩ := e
    rw [List.filter_cons]
    by_cases hk : k = q
    · have hd : (decide ((k, b).1 ≠ q)) = false := by simp [hk]
      have hk' : ¬ k = q' := fun hq => h (hq ▸ hk ▸ rfl)
      rw [hd, List.lookup_cons, beq_false_of_ne fun hq => hk' hq.symm]
      exact ih
    · have hd : (decide ((k, b).1 ≠ q)) = true := by simp [hk]
      rw [hd, if_pos rfl, List.lookup_cons, List.lookup_cons]
      by_cases hk' : k = q'
      · subst hk'
        rw [beq_self_eq_true]
      · rw [beq_false_of_ne fun hq => hk' hq.symm]
        exact ih

/-- Lookup distributes over append, preferring the left list. -/
theorem lookup_append_o (l₁ l₂ : List (String × Bool)) (q : String) :
    (l₁ ++ l₂).lookup q = ((l₁.lookup q).rec (l₂.lookup q) fun b => some b) := by
  induction l₁ with
  | nil => rfl
  | cons e t ih =>
    obtain ⟨k, b⟩ := e
    rw [List.cons_append, List.lookup_cons, List.lookup_cons]
    by_cases hk : k = q
    · subst hk
      rw [beq_self_eq_true]
    · rw [beq_false_of_ne fun hq => hk hq.symm]
      exact ih

/-- After marking a query completed, it reads back as completed. -/
theorem is_completed_after_mark (l : List (String × Bool)) (q : String) :
    is_query_completed (mark_query_completed l q) q = true := by
  rw [is_query_completed, mark_query_completed, lookup_append_o, lookup_filter_ne_self,
    List.lookup_cons, beq_self_eq_true]
  rfl

/-- Marking one query completed does not change the completion status
of any other query. -/
theorem mark_preserves_other (l : List (String × Bool)) (q q' : String) (h : q' ≠ q) :
    is_query_completed (mark_query_completed l q) q' = is_query_completed l q' := by
  rw [is_query_completed, is_query_completed, mark_query_completed, lookup_append_o,
    lookup_filter_ne_other l q q' h]
  cases hv : l.lookup q' with
  | none => rw [List.lookup_cons, beq_false_of_ne h]; rfl
  | some b => rfl

/-- Under unique keys, a truthy lookup is the same as membership of a
true-flagged entry. -/
theorem completed_iff_mem (l : List (String × Bool)) (q : String)
    (hkeys : (l.map Prod.fst).Nodup) :
    (is_query_completed l q = true ↔ (q, true) ∈ l) := by
  induction l with
  | nil => simp [is_query_completed]
  | cons e t ih =>
    obtain ⟨k, b⟩ := e
    obtain ⟨hnot, hnd⟩ := List.nodup_cons.mp hkeys
    by_cases h : k = q
    · subst h
      have hmem : (k, true) ∉ t := fun hm => hnot (List.mem_map.mpr ⟨(k, true), hm, rfl⟩)
      rw [is_query_completed, List.lookup_cons, beq_self_eq_true]
      constructor
      · intro hb
        cases b with
        | true => exact List.mem_cons_self _ _
        | false => simp at hb
      · intro hm
        rcases List.mem_cons.mp hm with heq | hmt
        · cases heq; rfl
        · exact absurd hmt hmem
    · rw [is_query_completed, List.lookup_cons, beq_false_of_ne fun hq => h hq.symm]
      rw [← is_query_completed, ih hnd]
      constructor
      · exact fun hm => List.mem_cons_of_mem _ hm
      · intro hm
        rcases List.mem_cons.mp hm with heq | hmt
        · exact absurd (congrArg Prod.fst heq).symm h
        · exact hmt

/-- Marking a query completed twice is the same as marking it once. -/
theorem mark_idempotent (l : List (String × Bool)) (q : String) :
    mark_query_completed (mark_query_completed l q) q = mark_query_completed l q := by
  rw [mark_query_completed, mark_query_completed, List.filter_append, List.filter_filter]
  have h1 : List.filter (fun e => decide (e.1 ≠ q)) [(q, true)] = ([] : List (String × Bool)) := by
    simp
  have h2 : ∀ e : String × Bool,
      (decide (e.1 ≠ q) && decide (e.1 ≠ q)) = decide (e.1 ≠ q) := by
    intro e
    exact Bool.and_self _
  rw [h1, List.append_nil, List.filter_congr fun e _ => h2 e]

/-- Claim C7: is_query_completed is true exactly when a completion
entry with a set flag exists (under the primary-key uniqueness of the
ledger); after mark_query_completed the query reads back as completed;
and mark_query_completed is idempotent. -/
theorem claim_c7_completion_ledger (l : List (String × Bool)) (q : String)
    (hkeys : (l.map Prod.fst).Nodup) :
    (is_query_completed l q = true ↔ (q, true) ∈ l)
    ∧ is_query_completed (mark_query_completed l q) q = true
    ∧ mark_query_completed (mark_query_completed l q) q = mark_query_completed l q :=
  ⟨completed_iff_mem l q hkeys, is_completed_after_mark l q, mark_idempotent l q⟩

/-- Witness for C7 at a concrete ledger. -/
theorem claim_c7_completion_ledger_witness :
    (is_query_completed [("zzz", false)] "abc" = true ↔ ("abc", true) ∈ [("zzz", false)])
    ∧ is_query_completed (mark_query_completed [("zzz", false)] "abc") "abc" = true := by
  have h := claim_c7_completion_ledger [("zzz", false)] "abc" (by decide)
  exact ⟨h.1, h.2.1⟩

/-! Upsert idempotence (claim C6). -/

/-- Filtering an upserted table for the identifier of the row just
written yields exactly that row: the write removed every other row
with that identifier. -/
theorem filter_upsert_eq (table : List Row) (r : Row) (i : String) (h : r.id = some i) :
    (upsertRow table r).filter (fun x => x.id = some i) = [r] := by
  rw [upsertRow, h, List.filter_append, List.filter_filter]
  have h1 : ∀ x : Row, (decide (x.id = some i) && decide (x.id ≠ some i)) = false := by
    intro x
    by_cases hx : x.id = some i <;> simp [hx]
  have h2 : List.filter (fun x => decide (x.id = some i) && decide (x.id ≠ some i)) table
      = [] := by
    rw [List.filter_congr fun x _ => h1 x]
    exact List.filter_false _
  rw [h2, List.nil_append, List.filter_cons]
  simp [h]

/-- Claim C6: save_podcast is an insert-or-replace keyed by the id
column.  Writing two records carrying the same identifier leaves
exactly one row with that identifier, holding the second record's
values. -/
theorem claim_c6_upsert_insert_or_replace
    (table table₁ table₂ : List Row) (i : String) (pd₁ pd₂ : PodcastData) (r₁ r₂ : Row)
    (hb₁ : buildRow pd₁ = Except.ok r₁) (hb₂ : buildRow pd₂ = Except.ok r₂)
    (hid₁ : r₁.id = some i) (hid₂ : r₂.id = some i)
    (hs₁ : save_podcast table pd₁ = Except.ok table₁)
    (hs₂ : save_podcast table₁ pd₂ = Except.ok table₂) :
    table₂.filter (fun x => x.id = some i) = [r₂] := by
  rw [save_podcast, hb₂] at hs₂
  obtain rfl := Except.ok.inj hs₂
  exact filter_upsert_eq table₁ r₂ i hid₂

/-- A fetched item whose optional fields are all present and
well-formed; used as concrete data in the witnesses. -/
def sampleShowA : ShowItem where
  id := some "X"
  name := some "A"
  description := none
  publisher := none
  total_episodes := none
  explicit := none
  media_type := none
  available_markets := none
  languages := none
  images := some [⟨none⟩]
  external_urls := some ⟨none⟩
  href := none

/-- A second item with the same identifier but a different name. -/
def sampleShowB : ShowItem where
  id := some "X"
  name := some "B"
  description := none
  publisher := none
  total_episodes := none
  explicit := none
  media_type := none
  available_markets := none
  languages := none
  images := some [⟨none⟩]
  external_urls := some ⟨none⟩
  href := none

/-- The row save_podcast persists for sampleShowA. -/
def rowA : Row where
  id := some "X"
  name := some "A"
  description := none
  publisher := none
  total_episodes := none
  explicit := none
  media_type := none
  available_markets := none
  languages := none
  image_url := none
  external_url := none
  href := none
  recorded_countries := none
  market := some "US"

/-- The row save_podcast persists for sampleShowB. -/
def rowB : Row where
  id := some "X"
  name := some "B"
  description := none
  publisher := none
  total_episodes := none
  explicit := none
  media_type := none
  available_markets := none
  languages := none
  image_url := none
  external_url := none
  href := none
  recorded_countries := none
  market := some "US"

/-- Witness for C6: two concrete writes with identifier X and
different names leave exactly the second row. -/
theorem claim_c6_upsert_insert_or_replace_witness :
    save_podcast [] (podcast_data_of sampleShowA) = Except.ok [rowA]
    ∧ save_podcast [rowA] (podcast_data_of sampleShowB) = Except.ok [rowB]
    ∧ List.filter (fun x => x.id = some "X") [rowB] = [rowB] :=
  ⟨rfl, rfl,
    claim_c6_upsert_insert_or_replace [] [rowA] [rowB] "X"
      (podcast_data_of sampleShowA) (podcast_data_of sampleShowB) rowA rowB
      rfl rfl rfl rfl rfl rfl⟩

/-- Claim C10: in every row save_podcast builds, the
recorded_countries column carries exactly the available_markets value:
both are the comma-joined available-markets list, NULL when that list
is absent or empty. -/
theorem claim_c10_recorded_countries_mirror (pd : PodcastData) (r : Row)
    (h : buildRow pd = Except.ok r) :
    r.recorded_countries = r.available_markets
    ∧ r.recorded_countries = join_markets pd.available_markets := by
  rw [buildRow] at h
  rcases him : dget pd.images (some [⟨none⟩]) with _ | (_ | ⟨i, il⟩) <;> rw [him] at h
  · exact Except.noConfusion h
  · exact Except.noConfusion h
  · rcases hex : dget pd.external_urls (some ⟨none⟩) with _ | u <;> rw [hex] at h
    · exact Except.noConfusion h
    · obtain rfl := (Except.ok.inj h).symm
      exact ⟨rfl, rfl⟩

/-- Witness for C10 at the concrete record of sampleShowA. -/
theorem claim_c10_recorded_countries_mirror_witness :
    rowA.recorded_countries = rowA.available_markets
    ∧ rowA.recorded_countries = join_markets (podcast_data_of sampleShowA).available_markets :=
  claim_c10_recorded_countries_mirror (podcast_data_of sampleShowA) rowA rfl

/-! Retry policy (claim C3). -/

/-- The retry loop performs at most one more invocation than it has
retries left. -/
theorem retry_call_count_le {ε α : Type} (stub : Nat → Except ε α) :
    ∀ k attempt, (retry_call stub attempt k).2 ≤ k + 1 := by
  intro k
  induction k with
  | zero =>
    intro attempt
    rw [retry_call.eq_def]
    rcases h : stub attempt with e | a <;> simp
  | succ n ih =>
    intro attempt
    rw [retry_call.eq_def]
    rcases h : stub attempt with e | a
    · simpa using Nat.add_le_add_right (ih (attempt + 1)) 1
    · simp

/-- Exact behaviour of the retry loop against a stub that fails on the
first N attempts and succeeds afterwards: the loop succeeds as soon as
its budget reaches attempt N, and the number of invocations is the
failing ones plus either the successful one or the budget cutoff. -/
theorem retry_call_fail_then_ok {ε α : Type} (N : Nat) (e : ε) (a : α)
    (stub : Nat → Except ε α)
    (hstub : ∀ i, stub i = if i < N then Except.error e else Except.ok a) :
    ∀ k attempt,
      retry_call stub attempt k
        = (if attempt + k < N then Except.error e else Except.ok a,
           min (N - attempt + 1) (k + 1)) := by
  intro k
  induction k with
  | zero =>
    intro attempt
    rw [retry_call.eq_def, hstub attempt]
    by_cases h : attempt < N
    · have h0 : attempt + 0 < N := by omega
      have hm : min (N - attempt + 1) (0 + 1) = 1 := by omega
      simp [h, h0, hm]
    · have h0 : ¬ attempt + 0 < N := by omega
      have hm : min (N - attempt + 1) (0 + 1) = 1 := by omega
      simp [h, h0, hm]
  | succ n ih =>
    intro attempt
    rw [retry_call.eq_def, hstub attempt]
    by_cases h : attempt < N
    · rw [if_pos h]
      have ha : attempt + 1 + n = attempt + (n + 1) := by omega
      have hm : min (N - (attempt + 1) + 1) (n + 1) + 1
          = min (N - attempt + 1) (n + 1 + 1) := by omega
      simp only [ih (attempt + 1), ha]
      rw [Prod.ext_iff]
      exact ⟨rfl, hm⟩
    · rw [if_neg h]
      have h2 : ¬ attempt + (n + 1) < N := by omega
      have hm : min (N - attempt + 1) (n + 1 + 1) = 1 := by omega
      simp [h2, hm]

/-- Claim C3: against a stub failing N times then succeeding,
fetch_data returns the success exactly when N is below the maximum
attempt count 5 and otherwise propagates the final failure; it invokes
the stub min(N+1, 5) times, and against any stub at all it invokes it
at most 5 times. -/
theorem claim_c3_retry_bound {ε α : Type} (N : Nat) (e : ε) (a : α) :
    ((fetch_data fun i => if i < N then Except.error e else Except.ok a).1
        = if N < 5 then Except.ok a else Except.error e)
    ∧ (fetch_data fun i => if i < N then Except.error e else Except.ok a).2 = min (N + 1) 5
    ∧ ∀ stub : Nat → Except ε α, (fetch_data stub).2 ≤ 5 := by
  have h := retry_call_fail_then_ok N e a _ (fun i => rfl) 4 0
  rw [fetch_data, h]
  refine ⟨?_, ?_, fun stub => retry_call_count_le stub 4 0⟩
  · by_cases h5 : N < 5
    · rw [if_pos h5, if_neg (by omega)]
    · rw [if_neg h5, if_pos (by omega)]
  · simp only
    omega

/-- Witness for C3: two failures then success yields the success in
three invocations; nine failures exhaust the five attempts and
propagate the error. -/
theorem claim_c3_retry_bound_witness :
    (fetch_data fun i => if i < 2 then Except.error () else Except.ok 7).1 = Except.ok 7
    ∧ (fetch_data fun i => if i < 2 then Except.error () else Except.ok 7).2 = 3
    ∧ (fetch_data fun i => if i < 9 then Except.error () else Except.ok 7).1
        = Except.error () := by
  obtain ⟨h1, h2, -⟩ := @claim_c3_retry_bound Unit Nat 2 () 7
  obtain ⟨g1, -, -⟩ := @claim_c3_retry_bound Unit Nat 9 () 7
  refine ⟨by simpa using h1, by simpa using h2, by simpa using g1⟩

/-! The pagination loop (claims C4, C5, C8). -/

/-- The pagination loop never touches the completion ledger: only
save_podcast runs inside it, and that writes to the podcasts table. -/
theorem process_loop_progress {ε : Type} (fetch : Nat → Except ε SearchResult) :
    ∀ n offset db, 1000 - offset ≤ n →
      (process_loop fetch db offset).db.progress = db.progress := by
  intro n
  induction n with
  | zero =>
    intro offset db h
    rw [process_loop.eq_def, if_neg (by omega)]
  | succ n ih =>
    intro offset db h
    rw [process_loop.eq_def]
    split
    · split
      · rfl
      · split
        · rfl
        · dsimp only
          split
          · exact ih (offset + 50) _ (by omega)
          · rfl
    · rfl

/-- Every fetch the pagination loop issues happens at an offset below
the 1000 ceiling and at or after the starting offset, and the number
of fetches is bounded by the remaining page budget. -/
theorem process_loop_fetch_bound {ε : Type} (fetch : Nat → Except ε SearchResult) :
    ∀ n offset db, 1000 - offset ≤ n →
      (∀ o ∈ (process_loop fetch db offset).fetched, offset ≤ o ∧ o < 1000)
      ∧ (process_loop fetch db offset).fetched.length ≤ (1049 - offset) / 50 := by
  intro n
  induction n with
  | zero =>
    intro offset db h
    rw [process_loop.eq_def, if_neg (by omega)]
    exact ⟨fun o ho => absurd ho (List.not_mem_nil o), Nat.zero_le _⟩
  | succ n ih =>
    intro offset db h
    rw [process_loop.eq_def]
    by_cases hoff : offset < 1000
    · rw [if_pos hoff]
      have hsing : (∀ o ∈ [offset], offset ≤ o ∧ o < 1000)
          ∧ ([offset] : List Nat).length ≤ (1049 - offset) / 50 := by
        refine ⟨?_, ?_⟩
        · intro o ho
          rw [List.mem_singleton] at ho
          subst ho
          exact ⟨Nat.le_refl _, hoff⟩
        · have h1 : (1 : Nat) ≤ (1049 - offset) / 50 := by omega
          simpa using h1
      rcases hf : fetch offset with e | results
      · exact hsing
      · dsimp only
        rcases hi : extract_items results with _ | ⟨s, rest⟩
        · exact hsing
        · dsimp only
          by_cases hok : (save_all db.podcasts (s :: rest)).2.2
          · rw [if_pos hok]
            have ihh := ih (offset + 50)
              { db with podcasts := (save_all db.podcasts (s :: rest)).1 } (by omega)
            refine ⟨?_, ?_⟩
            · intro o ho
              rcases List.mem_cons.mp ho with rfl | hmem
              · exact ⟨Nat.le_refl _, hoff⟩
              · obtain ⟨h1, h2⟩ := ihh.1 o hmem
                exact ⟨by omega, h2⟩
            · have h2 := ihh.2
              rw [List.length_cons]
              omega
          · rw [if_neg hok]
            exact hsing
    · rw [if_neg hoff]
      exact ⟨fun o ho => absurd ho (List.not_mem_nil o), Nat.zero_le _⟩

/-- Claim C5: for every fetch oracle, every query and every starting
database, the ledger after process_query is exactly the starting
ledger with one completion mark for that query appended by the final
mark_query_completed call: the loop itself never writes the ledger,
and every terminating path ends in the single completion mark, after
which the query reads back as completed. -/
theorem claim_c5_marks_complete_once {ε : Type} (fetch : Nat → Except ε SearchResult)
    (q : String) (db : Db) :
    (process_query fetch q db).db.progress = mark_query_completed db.progress q
    ∧ is_query_completed (process_query fetch q db).db.progress q = true := by
  have hp : (process_loop fetch db 0).db.progress = db.progress :=
    process_loop_progress fetch 1000 0 db (by omega)
  constructor
  · rw [process_query]
    dsimp only
    rw [hp]
  · rw [process_query]
    dsimp only
    rw [hp]
    exact is_completed_after_mark db.progress q

/-- When the very first item of the first fetched page cannot be
persisted, the whole run of process_query collapses to: one fetch, no
rows written, count zero, and the query marked completed. -/
theorem process_query_first_save_error {ε : Type} (fetch : Nat → Except ε SearchResult)
    (q : String) (db : Db) (res : SearchResult) (s : ShowItem) (rest : List ShowItem)
    (err : SaveErr) (hf : fetch 0 = Except.ok res) (hi : extract_items res = s :: rest)
    (hb : buildRow (podcast_data_of s) = Except.error err) :
    process_query fetch q db
      = ⟨⟨db.podcasts, mark_query_completed db.progress q⟩, 0, [0]⟩ := by
  have hsp : save_podcast db.podcasts (podcast_data_of s) = Except.error err := by
    rw [save_podcast, hb]
    rfl
  have hsa : save_all db.podcasts (s :: rest) = (db.podcasts, 0, false) := by
    rw [save_all, hsp]
  rw [process_query, process_loop.eq_def, if_pos (by omega : (0 : Nat) < 1000), hf]
  dsimp only
  rw [hi]
  dsimp only
  rw [hsa]
  rfl

/-- Claim C8: a failure while persisting a record is fatal to the
enclosing page-processing operation: it escapes the for-loop into the
same handler that catches fetch errors, so the pagination loop stops
at once (no further fetches even though the oracle has more pages),
the rows saved so far stay saved, process_query still marks its own
query completed and returns normally, and no other query's completion
status changes.  Here the failure hits the first item of the first
page, so no row at all is written. -/
theorem claim_c8_storage_failure_terminates_query {ε : Type}
    (fetch : Nat → Except ε SearchResult) (q : String) (db : Db)
    (res : SearchResult) (s : ShowItem) (rest : List ShowItem) (err : SaveErr)
    (hf : fetch 0 = Except.ok res) (hi : extract_items res = s :: rest)
    (hb : buildRow (podcast_data_of s) = Except.error err) :
    (process_query fetch q db).fetched = [0]
    ∧ (process_query fetch q db).db.podcasts = db.podcasts
    ∧ (process_query fetch q db).total = 0
    ∧ is_query_completed (process_query fetch q db).db.progress q = true
    ∧ ∀ q', q' ≠ q →
        is_query_completed (process_query fetch q db).db.progress q'
          = is_query_completed db.progress q' := by
  have h := process_query_first_save_error fetch q db res s rest err hf hi hb
  rw [h]
  exact ⟨rfl, rfl, rfl, is_completed_after_mark db.progress q,
    fun q' hq' => mark_preserves_other db.progress q q' hq'⟩

/-- A fetched item carrying none of the optional fields: every key of
the podcast_data dict it produces is bound to None. -/
def badShow : ShowItem where
  id := none
  name := none
  description := none
  publisher := none
  total_episodes := none
  explicit := none
  media_type := none
  available_markets := none
  languages := none
  images := none
  external_urls := none
  href := none

/-- Witness for C8 with a concrete page whose first item cannot be
saved: one fetch happens, nothing is written, and the completion
status of the unrelated query zzz is untouched. -/
theorem claim_c8_storage_failure_terminates_query_witness :
    (process_query (fun _ => Except.ok ⟨some ⟨some [badShow]⟩⟩ : Nat → Except Unit SearchResult)
        "aaa" ⟨[], [("zzz", true)]⟩).fetched = [0]
    ∧ (process_query (fun _ => Except.ok ⟨some ⟨some [badShow]⟩⟩ : Nat → Except Unit SearchResult)
        "aaa" ⟨[], [("zzz", true)]⟩).db.podcasts = []
    ∧ is_query_completed
        (process_query (fun _ => Except.ok ⟨some ⟨some [badShow]⟩⟩ : Nat → Except Unit SearchResult)
          "aaa" ⟨[], [("zzz", true)]⟩).db.progress "zzz"
        = is_query_completed [("zzz", true)] "zzz" := by
  have h := claim_c8_storage_failure_terminates_query
    (fun _ => Except.ok ⟨some ⟨some [badShow]⟩⟩ : Nat → Except Unit SearchResult)
    "aaa" ⟨[], [("zzz", true)]⟩ ⟨some ⟨some [badShow]⟩⟩ badShow [] SaveErr.typeError
    rfl rfl rfl
  exact ⟨h.1, h.2.1, h.2.2.2.2 "zzz" (by decide)⟩

/-! Exact pagination count for the spec's stub (claim C4). -/

/-- The spec's pagination stub: a non-empty page at every offset up to
950 and empty pages afterwards. -/
def stub950 : Nat → Except Unit SearchResult := fun offset =>
  if offset ≤ 950 then Except.ok ⟨some ⟨some [sampleShowA]⟩⟩ else Except.ok ⟨some ⟨some []⟩⟩

/-- Saving the one-item page of sampleShowA always succeeds and counts
one record. -/
theorem save_all_sampleA (table : List Row) :
    save_all table [sampleShowA] = (upsertRow table rowA, 1, true) := by
  have hsp : save_podcast table (podcast_data_of sampleShowA)
      = Except.ok (upsertRow table rowA) := by
    rw [save_podcast, show buildRow (podcast_data_of sampleShowA) = Except.ok rowA from rfl]
    rfl
  rw [save_all.eq_def]
  dsimp only
  rw [hsp]
  rfl

/-- Counting down from the page budget: starting the loop at offset
50k with 20 - k pages remaining performs exactly 20 - k fetches
against stub950. -/
theorem process_loop_stub950 :
    ∀ n k db, k + n = 20 →
      (process_loop stub950 db (50 * k)).fetched.length = n := by
  intro n
  induction n with
  | zero =>
    intro k db hk
    have h1000 : 50 * k = 1000 := by omega
    rw [h1000, process_loop.eq_def, if_neg (by omega)]
    rfl
  | succ n ih =>
    intro k db hk
    rw [process_loop.eq_def, if_pos (by omega : 50 * k < 1000)]
    have hs : stub950 (50 * k) = Except.ok ⟨some ⟨some [sampleShowA]⟩⟩ := by
      simp only [stub950]
      rw [if_pos (by omega : 50 * k ≤ 950)]
    rw [hs]
    dsimp only
    rw [show extract_items ⟨some ⟨some [sampleShowA]⟩⟩ = [sampleShowA] from rfl]
    dsimp only
    rw [save_all_sampleA db.podcasts]
    dsimp only
    rw [if_pos rfl]
    have h50 : 50 * k + 50 = 50 * (k + 1) := by ring
    rw [h50, List.length_cons, ih (k + 1) _ (by omega)]

/-- Claim C4: the pagination loop never fetches at an offset at or
beyond the 1000 ceiling and issues at most 20 fetches per query
whatever the oracle does; against the stub with non-empty pages up to
offset 950 and empty ones beyond, it issues exactly 20 fetches. -/
theorem claim_c4_pagination_bounds :
    (∀ (ε : Type) (fetch : Nat → Except ε SearchResult) (q : String) (db : Db),
        (∀ o ∈ (process_query fetch q db).fetched, o < 1000)
        ∧ (process_query fetch q db).fetched.length ≤ 20)
    ∧ (process_query stub950 "aaa" (⟨[], []⟩ : Db)).fetched.length = 20 := by
  constructor
  · intro ε fetch q db
    obtain ⟨hmem, hlen⟩ := process_loop_fetch_bound fetch 1000 0 db (by omega)
    constructor
    · intro o ho
      exact (hmem o ho).2
    · calc (process_query fetch q db).fetched.length
          = (process_loop fetch db 0).fetched.length := rfl
        _ ≤ (1049 - 0) / 50 := hlen
        _ = 20 := by norm_num
  · calc (process_query stub950 "aaa" (⟨[], []⟩ : Db)).fetched.length
        = (process_loop stub950 (⟨[], []⟩ : Db) (50 * 0)).fetched.length := rfl
      _ = 20 := process_loop_stub950 20 0 ⟨[], []⟩ (by omega)

/-- Witness for C4 at the concrete stub. -/
theorem claim_c4_pagination_bounds_witness :
    (process_query stub950 "aaa" (⟨[], []⟩ : Db)).fetched.length = 20
    ∧ (process_query stub950 "aaa" (⟨[], []⟩ : Db)).fetched.length ≤ 20 :=
  ⟨claim_c4_pagination_bounds.2,
    (claim_c4_pagination_bounds.1 Unit stub950 "aaa" ⟨[], []⟩).2⟩

/-! Dispatch of completed queries (claim C1) and optional fields
(claim C9). -/

/-- A fetch oracle with a single non-empty page at offset 0 and empty
pages everywhere else. -/
def one_page_stub : Nat → Except Unit SearchResult := fun offset =>
  if offset = 0 then Except.ok ⟨some ⟨some [sampleShowB]⟩⟩ else Except.ok ⟨some ⟨some []⟩⟩

/-- Evaluation of the pagination loop in the C1 scenario: one
non-empty page is fetched, its record overwrites the stored row with
the same identifier, and the following empty page ends the loop. -/
theorem process_loop_c1_scenario :
    process_loop one_page_stub ⟨[rowA], [("abc", true)]⟩ 0
      = ⟨⟨[rowB], [("abc", true)]⟩, 1, [0, 50]⟩ := by
  rw [process_loop.eq_def, if_pos (by norm_num : (0 : Nat) < 1000)]
  rw [show one_page_stub 0 = Except.ok ⟨some ⟨some [sampleShowB]⟩⟩ from rfl]
  dsimp only
  rw [show extract_items ⟨some ⟨some [sampleShowB]⟩⟩ = [sampleShowB] from rfl]
  dsimp only
  rw [show save_all [rowA] [sampleShowB] = ([rowB], 1, true) from rfl]
  dsimp only
  rw [if_pos rfl]
  rw [process_loop.eq_def, if_pos (by norm_num : 0 + 50 < 1000)]
  rw [show one_page_stub (0 + 50) = Except.ok ⟨some ⟨some []⟩⟩ from rfl]
  dsimp only
  rw [show extract_items ⟨some ⟨some ([] : List ShowItem)⟩⟩ = [] from rfl]
  rfl

/-- Claim C1 (code evaluation): main dispatches the full query list
without consulting the ledger - is_query_completed has no caller - so
a ledger where abc is completed does not stop abc from being handed to
process_query; the fetcher is then invoked for abc (at offsets 0 and
50) and its stored record is overwritten. -/
theorem claim_c1_completed_query_still_dispatched :
    "abc" ∈ main_queries
    ∧ is_query_completed [("abc", true)] "abc" = true
    ∧ (process_query one_page_stub "abc" ⟨[rowA], [("abc", true)]⟩).fetched = [0, 50]
    ∧ (process_query one_page_stub "abc" ⟨[rowA], [("abc", true)]⟩).db.podcasts = [rowB]
    ∧ ([rowB] : List Row) ≠ [rowA] := by
  refine ⟨?_, rfl, ?_, ?_, by decide⟩
  · set_option maxRecDepth 2000 in decide
  · rw [process_query]
    dsimp only
    rw [process_loop_c1_scenario]
  · rw [process_query]
    dsimp only
    rw [process_loop_c1_scenario]

/-- The row written for an item that carries an identifier-less but
otherwise savable payload: every column NULL except the constant
market. -/
def rowNoId : Row :=
  ⟨none, none, none, none, none, none, none, none, none, none, none, none, none, some "US"⟩

/-- Claim C9 (code evaluation): an item without an images key (its
podcast_data value is None) makes save_podcast raise TypeError, one
with an empty images list raises IndexError, and one without
external_urls raises AttributeError - so those fields are not
optional, and the record of such an item is never written (the page
loop aborts with zero records).  Only an item whose images and
external_urls are present can omit everything else, including the
identifier, and still be written. -/
theorem claim_c9_optional_fields_break_save :
    badShow.images = none
    ∧ save_podcast [] (podcast_data_of badShow) = Except.error SaveErr.typeError
    ∧ save_podcast [] (podcast_data_of { badShow with images := some [] })
        = Except.error SaveErr.indexError
    ∧ save_podcast [] (podcast_data_of { badShow with images := some [⟨none⟩] })
        = Except.error SaveErr.attributeError
    ∧ save_podcast [] (podcast_data_of
          { badShow with images := some [⟨none⟩], external_urls := some ⟨none⟩ })
        = Except.ok [rowNoId]
    ∧ (process_query (fun _ => Except.ok ⟨some ⟨some [badShow]⟩⟩ : Nat → Except Unit SearchResult)
        "aaa" (⟨[], []⟩ : Db)).db.podcasts = []
    ∧ (process_query (fun _ => Except.ok ⟨some ⟨some [badShow]⟩⟩ : Nat → Except Unit SearchResult)
        "aaa" (⟨[], []⟩ : Db)).total = 0 := by
  have h := process_query_first_save_error
    (fun _ => Except.ok ⟨some ⟨some [badShow]⟩⟩ : Nat → Except Unit SearchResult)
    "aaa" ⟨[], []⟩ ⟨some ⟨some [badShow]⟩⟩ badShow [] SaveErr.typeError rfl rfl rfl
  refine ⟨rfl, rfl, rfl, rfl, rfl, ?_, ?_⟩
  · rw [h]
  · rw [h]

/-! Query enumeration (claim C2). -/

/-- Length of a flatMap whose blocks all have the same length. -/
theorem flatMap_const_length {α β : Type} (f : α → List β) (m : Nat) :
    ∀ l : List α, (∀ a ∈ l, (f a).length = m) → (l.flatMap f).length = l.length * m := by
  intro l
  induction l with
  | nil => intro _; simp
  | cons a t ih =>
    intro h
    rw [List.flatMap_cons, List.length_append, h a (List.mem_cons_self a t),
      ih fun a' ha' => h a' (List.mem_cons_of_mem _ ha'), List.length_cons]
    have : (t.length + 1) * m = t.length * m + m := Nat.succ_mul t.length m
    omega

/-- Membership in generate_prefixes is exactly being a three-letter
string over the alphabet. -/
theorem mem_generate_prefixes (s : String) :
    s ∈ generate_prefixes
      ↔ ∃ a ∈ "abcdefghijklmnopqrstuvwxyz".toList,
          ∃ b ∈ "abcdefghijklmnopqrstuvwxyz".toList,
            ∃ c ∈ "abcdefghijklmnopqrstuvwxyz".toList, s = String.mk [a, b, c] := by
  simp only [generate_prefixes, List.mem_flatMap, List.mem_map]
  constructor
  · rintro ⟨a, ha, b, hb, c, hc, rfl⟩
    exact ⟨a, ha, b, hb, c, hc, rfl⟩
  · rintro ⟨a, ha, b, hb, c, hc, rfl⟩
    exact ⟨a, ha, b, hb, c, hc, rfl⟩

/-- Pairwise order of a flatMap from ordered blocks over an ordered
index list. -/
theorem pairwise_flatMap_of {α β : Type} {r : α → α → Prop} {s : β → β → Prop}
    (f : α → List β)
    (hcross : ∀ a a', r a a' → ∀ x ∈ f a, ∀ y ∈ f a', s x y) :
    ∀ l : List α, l.Pairwise r → (∀ a ∈ l, (f a).Pairwise s) →
      (l.flatMap f).Pairwise s := by
  intro l
  induction l with
  | nil =>
    intro _ _
    simp
  | cons a t ih =>
    intro hl hf
    rw [List.flatMap_cons, List.pairwise_append]
    obtain ⟨hra, hrt⟩ := List.pairwise_cons.mp hl
    refine ⟨hf a (List.mem_cons_self a t),
      ih hrt (fun a' ha' => hf a' (List.mem_cons_of_mem _ ha')), ?_⟩
    intro x hx y hy
    rw [List.mem_flatMap] at hy
    obtain ⟨a', ha', hy'⟩ := hy
    exact hcross a a' (hra a' ha') x hx y hy'

/-- A three-letter string is below another whose first letter is
larger. -/
theorem mk3_lt_left {a a' b c b' c' : Char} (h : a < a') :
    String.mk [a, b, c] < String.mk [a', b', c'] := by
  rw [String.lt_iff_toList_lt]
  exact List.Lex.rel h

/-- With equal first letters, the second letter decides. -/
theorem mk3_lt_mid {a b b' c c' : Char} (h : b < b') :
    String.mk [a, b, c] < String.mk [a, b', c'] := by
  rw [String.lt_iff_toList_lt]
  exact List.Lex.cons (List.Lex.rel h)

/-- With equal first and second letters, the third letter decides. -/
theorem mk3_lt_right {a b c c' : Char} (h : c < c') :
    String.mk [a, b, c] < String.mk [a, b, c'] := by
  rw [String.lt_iff_toList_lt]
  exact List.Lex.cons (List.Lex.cons (List.Lex.rel h))

/-- The alphabet list is strictly increasing. -/
theorem alphabet_pairwise :
    ("abcdefghijklmnopqrstuvwxyz".toList).Pairwise (· < ·) := by
  decide

/-- Claim C2: generate_prefixes yields exactly 26^3 = 17576 queries,
each of length 3 over the lowercase alphabet, strictly sorted in
lexicographic (string) order, hence without duplicates. -/
theorem claim_c2_generate_prefixes_spec :
    generate_prefixes.length = 17576
    ∧ (∀ s ∈ generate_prefixes,
        s.length = 3 ∧ ∀ ch ∈ s.data, ch ∈ "abcdefghijklmnopqrstuvwxyz".toList)
    ∧ List.Sorted (· < ·) generate_prefixes
    ∧ generate_prefixes.Nodup := by
  have halpha : ("abcdefghijklmnopqrstuvwxyz".toList).length = 26 := rfl
  have hsorted : generate_prefixes.Pairwise (· < ·) := by
    apply pairwise_flatMap_of
    · rintro a a' haa' x hx y hy
      simp only [List.mem_flatMap, List.mem_map] at hx hy
      obtain ⟨b, _, c, _, rfl⟩ := hx
      obtain ⟨b', _, c', _, rfl⟩ := hy
      exact mk3_lt_left haa'
    · exact alphabet_pairwise
    · intro a _
      apply pairwise_flatMap_of
      · rintro b b' hbb' x hx y hy
        simp only [List.mem_map] at hx hy
        obtain ⟨c, _, rfl⟩ := hx
        obtain ⟨c', _, rfl⟩ := hy
        exact mk3_lt_mid hbb'
      · exact alphabet_pairwise
      · intro b _
        rw [List.pairwise_map]
        exact alphabet_pairwise.imp fun hcc' => mk3_lt_right hcc'
  refine ⟨?_, ?_, hsorted, ?_⟩
  · rw [generate_prefixes]
    rw [flatMap_const_length _ 676]
    · rw [halpha]
    · intro a _
      rw [flatMap_const_length _ 26]
      · rw [halpha]
      · intro b _
        rw [List.length_map, halpha]
  · intro s hs
    obtain ⟨a, ha, b, hb, c, hc, rfl⟩ := (mem_generate_prefixes s).mp hs
    refine ⟨rfl, ?_⟩
    intro ch hch
    simp only [List.mem_cons, List.not_mem_nil, or_false] at hch
    rcases hch with rfl | rfl | rfl
    · exact ha
    · exact hb
    · exact hc
  · exact hsorted.imp fun h => ne_of_lt h

/-- Witness for C2 at the first generated query. -/
theorem claim_c2_generate_prefixes_spec_witness :
    "aaa" ∈ generate_prefixes ∧ "aaa".length = 3 := by
  have hmem : "aaa" ∈ generate_prefixes := by
    set_option maxRecDepth 2000 in decide
  exact ⟨hmem, (claim_c2_generate_prefixes_spec.2.1 "aaa" hmem).1⟩
